import Mathlib

/-!
Verification development for the `docbuilder` package: a shallow embedding of
the request builders, the offset-tracking batch builder, the table-population
algorithm of `docs_client.py`, the style serialization of `styles.py` and the
document parser of `utils.py`, together with theorems settling the claims
about them.

Python strings are sequences of Unicode code points, exactly as Lean `String`
(a list of `Char`); Python `len` on a string is the number of code points and
is embedded as `String.length`.  Python integers are embedded as `Int`, list
indices and lengths as `Nat`.  A raised Python exception is an `Except.error`
carrying the message.  Python floats occurring inside style values are never
computed with along the verified paths; they are embedded as `Rat` values that
pass through unchanged.
-/

/-- UTF-16 length of one code point: code points at or above U+10000 take two
UTF-16 code units, all others one. -/
def utf16LenChar (c : Char) : Nat := if c.toNat ≥ 0x10000 then 2 else 1

/-- UTF-16 code-unit length of a string (what the remote service counts). -/
def utf16Len (s : String) : Nat := s.data.foldl (fun n c => n + utf16LenChar c) 0

/-- One left-to-right non-overlapping pass of `str.replace("\r\n", "\n")`. -/
def replaceCRLF : List Char → List Char
  | [] => []
  | '\r' :: '\n' :: rest => '\n' :: replaceCRLF rest
  | c :: rest => c :: replaceCRLF rest

/-- Characters removed by `clean_text`'s regex `[\x00-\x08\x0b\x0c\x0e-\x1f\x7f]`. -/
def isRemovedCtrl (c : Char) : Bool :=
  let n := c.toNat
  (n ≤ 0x08) || n == 0x0b || n == 0x0c || (0x0e ≤ n && n ≤ 0x1f) || n == 0x7f

/-- `utils.clean_text`: normalize `\r\n` then `\r` to `\n`, then strip the
control characters matched by the regex. -/
def cleanText (s : String) : String :=
  ⟨((replaceCRLF s.data).map (fun c => if c == '\r' then '\n' else c)).filter
      (fun c => !(isRemovedCtrl c))⟩

/-- Whitespace stripped by Python `str.strip()` (ASCII subset, the only
characters relevant to the verified paths). -/
def isPySpace (c : Char) : Bool :=
  c == ' ' || c == '\t' || c == '\n' || c == '\r' || c.toNat == 0x0b || c.toNat == 0x0c

/-- Python `str.strip()`. -/
def pyStrip (s : String) : String :=
  ⟨((s.data.dropWhile isPySpace).reverse.dropWhile isPySpace).reverse⟩

/-- A JSON-like value appearing inside a wire-format style mapping. -/
inductive WireVal where
  | boolV (b : Bool)
  | strV (s : String)
  | intV (n : Int)
  | numV (q : Rat)
  | dictV (entries : List (String × WireVal))

/-- A wire-format mapping: an insertion-ordered association list, exactly the
shape in which the Python code builds its `dict` results. -/
abbrev Wire := List (String × WireVal)

/-- Helper building the `if field is not None: style[key] = value` pattern of
the `to_dict` methods: one entry when the field is set, nothing otherwise. -/
def setIf (key : String) (v : Option WireVal) : Wire :=
  match v with
  | some w => [(key, w)]
  | none => []

/-- `styles.Color` (RGB floats). -/
structure Color where
  red : Rat := 0
  green : Rat := 0
  blue : Rat := 0

/-- `Color.to_dict`. -/
def Color.toDict (c : Color) : Wire :=
  [("color", .dictV [("rgbColor", .dictV
      [("red", .numV c.red), ("green", .numV c.green), ("blue", .numV c.blue)])])]

/-- `styles.Dimension`. -/
structure Dimension where
  magnitude : Rat
  unit : String := "PT"

/-- `Dimension.to_dict`. -/
def Dimension.toDict (d : Dimension) : Wire :=
  [("magnitude", .numV d.magnitude), ("unit", .strV d.unit)]

/-- `styles.VerticalAlignment` enum. -/
inductive VerticalAlignment where
  | baseline
  | subscriptKind
  | superscriptKind

/-- The `.value` string of a `VerticalAlignment` member. -/
def VerticalAlignment.value : VerticalAlignment → String
  | .baseline => "BASELINE"
  | .subscriptKind => "SUBSCRIPT"
  | .superscriptKind => "SUPERSCRIPT"

/-- `styles.ParagraphStyleType` enum. -/
inductive ParagraphStyleType where
  | normalText | title | subtitle
  | heading1 | heading2 | heading3 | heading4 | heading5 | heading6

/-- The `.value` string of a `ParagraphStyleType` member. -/
def ParagraphStyleType.value : ParagraphStyleType → String
  | .normalText => "NORMAL_TEXT"
  | .title => "TITLE"
  | .subtitle => "SUBTITLE"
  | .heading1 => "HEADING_1"
  | .heading2 => "HEADING_2"
  | .heading3 => "HEADING_3"
  | .heading4 => "HEADING_4"
  | .heading5 => "HEADING_5"
  | .heading6 => "HEADING_6"

/-- `styles.TextAlignment` enum. -/
inductive TextAlignment where
  | start | center | endAlign | justify

/-- The `.value` string of a `TextAlignment` member. -/
def TextAlignment.value : TextAlignment → String
  | .start => "START"
  | .center => "CENTER"
  | .endAlign => "END"
  | .justify => "JUSTIFY"

/-- `styles.TableCellVerticalAlignment` enum. -/
inductive TableCellVerticalAlignment where
  | top | middle | bottom

/-- The `.value` string of a `TableCellVerticalAlignment` member. -/
def TableCellVerticalAlignment.value : TableCellVerticalAlignment → String
  | .top => "TOP"
  | .middle => "MIDDLE"
  | .bottom => "BOTTOM"

/-- `styles.TextStyle`: every field optional, `none` meaning Python `None`. -/
structure TextStyle where
  bold : Option Bool := none
  italic : Option Bool := none
  underline : Option Bool := none
  strikethrough : Option Bool := none
  small_caps : Option Bool := none
  font_family : Option String := none
  font_size : Option Dimension := none
  foreground_color : Option Color := none
  background_color : Option Color := none
  baseline_offset : Option VerticalAlignment := none
  link_url : Option String := none

/-- `TextStyle.to_dict`: each wire field is emitted iff the corresponding
attribute is not `None`, in the source's emission order. -/
def TextStyle.toDict (t : TextStyle) : Wire :=
  setIf "bold" (t.bold.map .boolV) ++
  setIf "italic" (t.italic.map .boolV) ++
  setIf "underline" (t.underline.map .boolV) ++
  setIf "strikethrough" (t.strikethrough.map .boolV) ++
  setIf "smallCaps" (t.small_caps.map .boolV) ++
  setIf "weightedFontFamily" (t.font_family.map (fun f =>
    .dictV [("fontFamily", .strV f), ("weight", .intV 400)])) ++
  setIf "fontSize" (t.font_size.map (fun d => .dictV d.toDict)) ++
  setIf "foregroundColor" (t.foreground_color.map (fun c => .dictV c.toDict)) ++
  setIf "backgroundColor" (t.background_color.map (fun c => .dictV c.toDict)) ++
  setIf "baselineOffset" (t.baseline_offset.map (fun v => .strV v.value)) ++
  setIf "link" (t.link_url.map (fun u => .dictV [("url", .strV u)]))

/-- `styles.ParagraphStyle`. -/
structure ParagraphStyle where
  namedStyleType : Option ParagraphStyleType := none
  alignment : Option TextAlignment := none
  line_spacing : Option Rat := none
  direction : Option String := none
  spacing_mode : Option String := none
  space_above : Option Dimension := none
  space_below : Option Dimension := none
  border_between : Option Wire := none
  border_top : Option Wire := none
  border_bottom : Option Wire := none
  border_left : Option Wire := none
  border_right : Option Wire := none
  indent_first_line : Option Dimension := none
  indent_start : Option Dimension := none
  indent_end : Option Dimension := none

/-- `ParagraphStyle.to_dict`: `namedStyleType` requires the enum value to be
nonempty as well; the border entries are appended last, in source order. -/
def ParagraphStyle.toDict (t : ParagraphStyle) : Wire :=
  (match t.namedStyleType with
   | some v => if v.value ≠ "" then [("namedStyleType", .strV v.value)] else []
   | none => []) ++
  setIf "alignment" (t.alignment.map (fun a => .strV a.value)) ++
  setIf "lineSpacing" (t.line_spacing.map .numV) ++
  setIf "direction" (t.direction.map .strV) ++
  setIf "spacingMode" (t.spacing_mode.map .strV) ++
  setIf "spaceAbove" (t.space_above.map (fun d => .dictV d.toDict)) ++
  setIf "spaceBelow" (t.space_below.map (fun d => .dictV d.toDict)) ++
  setIf "indentFirstLine" (t.indent_first_line.map (fun d => .dictV d.toDict)) ++
  setIf "indentStart" (t.indent_start.map (fun d => .dictV d.toDict)) ++
  setIf "indentEnd" (t.indent_end.map (fun d => .dictV d.toDict)) ++
  setIf "borderBetween" (t.border_between.map .dictV) ++
  setIf "borderTop" (t.border_top.map .dictV) ++
  setIf "borderBottom" (t.border_bottom.map .dictV) ++
  setIf "borderLeft" (t.border_left.map .dictV) ++
  setIf "borderRight" (t.border_right.map .dictV)

/-- `styles.TableCellStyle`. -/
structure TableCellStyle where
  background_color : Option Color := none
  border_left : Option Wire := none
  border_right : Option Wire := none
  border_top : Option Wire := none
  border_bottom : Option Wire := none
  padding_left : Option Dimension := none
  padding_right : Option Dimension := none
  padding_top : Option Dimension := none
  padding_bottom : Option Dimension := none
  content_alignment : Option TableCellVerticalAlignment := none

/-- `TableCellStyle.to_dict`: background, borders (left/right/top/bottom), then
the padding block (merged via `style.update(padding)`), then alignment. -/
def TableCellStyle.toDict (t : TableCellStyle) : Wire :=
  setIf "backgroundColor" (t.background_color.map (fun c => .dictV c.toDict)) ++
  setIf "borderLeft" (t.border_left.map .dictV) ++
  setIf "borderRight" (t.border_right.map .dictV) ++
  setIf "borderTop" (t.border_top.map .dictV) ++
  setIf "borderBottom" (t.border_bottom.map .dictV) ++
  (if t.padding_left.isSome || t.padding_right.isSome
      || t.padding_top.isSome || t.padding_bottom.isSome then
    setIf "paddingLeft" (t.padding_left.map (fun d => .dictV d.toDict)) ++
    setIf "paddingRight" (t.padding_right.map (fun d => .dictV d.toDict)) ++
    setIf "paddingTop" (t.padding_top.map (fun d => .dictV d.toDict)) ++
    setIf "paddingBottom" (t.padding_bottom.map (fun d => .dictV d.toDict))
  else []) ++
  setIf "contentAlignment" (t.content_alignment.map (fun v => .strV v.value))

/-- One wire-format request object, one constructor per top-level key that the
source's `RequestBuilder` emits (§ wire shapes).  The constant `"fields": "*"`
entries of the style-update requests are part of the constructor identity. -/
inductive Request where
  | insertText (index : Int) (text : String)
  | updateTextStyle (startIndex endIndex : Int) (textStyle : Wire)
  | updateParagraphStyle (startIndex endIndex : Int) (paragraphStyle : Wire)
  | insertTable (index : Int) (rows columns : Int)
  | insertPageBreak (index : Int)
  | insertSectionBreak (index : Int) (sectionType : String)
  | deleteContentRange (startIndex endIndex : Int)
  | createNamedRange (name : String) (startIndex endIndex : Int)
  | insertInlineImage (index : Int) (uri : String) (objectSize : Option Wire)
  | updateTableCellStyle (tableStartIndex : Int)
      (rowIndex columnIndex rowSpan columnSpan : Int) (tableCellStyle : Wire)

/-- Is the request an `insertText`? -/
def Request.isInsertText : Request → Bool
  | .insertText _ _ => true
  | _ => false

/-- Is the request an `updateTextStyle`? -/
def Request.isUpdateTextStyle : Request → Bool
  | .updateTextStyle _ _ _ => true
  | _ => false

/-- Is the request an `updateTableCellStyle`? -/
def Request.isUpdateTableCellStyle : Request → Bool
  | .updateTableCellStyle _ _ _ _ _ _ => true
  | _ => false

namespace RequestBuilder

/-- `RequestBuilder.insert_text`: builds only the `insertText` request; the
`text_style` argument is accepted but, per the source comment, the style
cannot be applied in an `insertText` request and is not used. -/
def insert_text (text : String) (location_index : Int)
    (_text_style : Option TextStyle := none) : Request :=
  .insertText location_index text

/-- `RequestBuilder.update_text_style`. -/
def update_text_style (start_index end_index : Int) (text_style : TextStyle) :
    Request :=
  .updateTextStyle start_index end_index text_style.toDict

/-- `RequestBuilder.update_paragraph_style`. -/
def update_paragraph_style (start_index end_index : Int)
    (paragraph_style : ParagraphStyle) : Request :=
  .updateParagraphStyle start_index end_index paragraph_style.toDict

/-- `RequestBuilder.insert_table`. -/
def insert_table (location_index : Int) (rows columns : Int) : Request :=
  .insertTable location_index rows columns

/-- `RequestBuilder.insert_page_break`. -/
def insert_page_break (location_index : Int) : Request :=
  .insertPageBreak location_index

/-- `RequestBuilder.insert_section_break`. -/
def insert_section_break (location_index : Int)
    (section_type : String := "NEXT_PAGE") : Request :=
  .insertSectionBreak location_index section_type

/-- `RequestBuilder.delete_content`. -/
def delete_content (start_index end_index : Int) : Request :=
  .deleteContentRange start_index end_index

end RequestBuilder

/-- `utils.validate_index_range`: raises `ValueError` (an `Except.error` here)
when `start_index < 1` or `end_index <= start_index`, in that checking order. -/
def validate_index_range (start_index end_index : Int) : Except String Unit :=
  if start_index < 1 then .error "Start index must be >= 1"
  else if end_index ≤ start_index then .error "End index must be > start index"
  else .ok ()

/-- `utils.BatchRequestBuilder` state: the accumulated requests and the
`_current_index` cursor (initialized to 1). -/
structure BatchRequestBuilder where
  requests : List Request
  currentIndex : Int

namespace BatchRequestBuilder

/-- A freshly constructed `BatchRequestBuilder()`. -/
def new : BatchRequestBuilder := ⟨[], 1⟩

/-- `BatchRequestBuilder.insert_text`: appends the `insertText` built by
`RequestBuilder.insert_text` at the cursor and advances the cursor by
`len(text)`. -/
def insert_text (b : BatchRequestBuilder) (text : String)
    (text_style : Option TextStyle := none) : BatchRequestBuilder :=
  { requests := b.requests ++ [RequestBuilder.insert_text text b.currentIndex text_style]
    currentIndex := b.currentIndex + (text.length : Int) }

/-- `BatchRequestBuilder.insert_paragraph`: inserts the text when nonempty,
then a `"\n"` break, then appends an `updateParagraphStyle` over
`[end - len(text) - 1, end)` when a paragraph style is given. -/
def insert_paragraph (b : BatchRequestBuilder) (text : String := "")
    (text_style : Option TextStyle := none)
    (paragraph_style : Option ParagraphStyle := none) : BatchRequestBuilder :=
  let b := if text ≠ "" then b.insert_text text text_style else b
  let b := b.insert_text "\n"
  match paragraph_style with
  | some ps =>
    let end_index := b.currentIndex
    let start_index := end_index - (text.length : Int) - 1
    { b with requests :=
        b.requests ++ [RequestBuilder.update_paragraph_style start_index end_index ps] }
  | none => b

/-- `BatchRequestBuilder.insert_table`: appends the request and advances the
cursor by the occupied-length heuristic `rows*columns*2 + 1`. -/
def insert_table (b : BatchRequestBuilder) (rows columns : Int) :
    BatchRequestBuilder :=
  { requests := b.requests ++ [RequestBuilder.insert_table b.currentIndex rows columns]
    currentIndex := b.currentIndex + rows * columns * 2 + 1 }

/-- `BatchRequestBuilder.insert_page_break`: appends the request and advances
the cursor by 1. -/
def insert_page_break (b : BatchRequestBuilder) : BatchRequestBuilder :=
  { requests := b.requests ++ [RequestBuilder.insert_page_break b.currentIndex]
    currentIndex := b.currentIndex + 1 }

/-- `BatchRequestBuilder.get_requests` (returns a copy of the list). -/
def get_requests (b : BatchRequestBuilder) : List Request := b.requests

/-- `BatchRequestBuilder.clear`: empties the requests and resets the cursor. -/
def clear (_b : BatchRequestBuilder) : BatchRequestBuilder := ⟨[], 1⟩

end BatchRequestBuilder

/-- One call to the batch builder, restricted to the three call kinds named by
the offset-monotonicity property: `insert_text`, `insert_paragraph`, and the
page-break insertion. -/
inductive BCall where
  | insertText (text : String) (style : Option TextStyle)
  | insertParagraph (text : String) (textStyle : Option TextStyle)
      (paragraphStyle : Option ParagraphStyle)
  | insertBreak

/-- Apply one call to a builder. -/
def BCall.apply (b : BatchRequestBuilder) : BCall → BatchRequestBuilder
  | .insertText text style => b.insert_text text style
  | .insertParagraph text ts ps => b.insert_paragraph text ts ps
  | .insertBreak => b.insert_page_break

/-- Run a sequence of calls on a fresh builder. -/
def runCalls (calls : List BCall) : BatchRequestBuilder :=
  calls.foldl BCall.apply BatchRequestBuilder.new

/-- Code units inserted by one call, counting Python `len` for texts (number
of code points) and 1 for each break, as the source does. -/
def BCall.pyUnits : BCall → Nat
  | .insertText text _ => text.length
  | .insertParagraph text _ _ => text.length + 1
  | .insertBreak => 1

/-- Code units inserted by one call, counting UTF-16 code units for texts
(the remote service's unit) and 1 for each break. -/
def BCall.utf16Units : BCall → Nat
  | .insertText text _ => utf16Len text
  | .insertParagraph text _ _ => utf16Len text + 1
  | .insertBreak => 1

/-- Does `needle` occur at the head of `hay`? -/
def startsWithChars : List Char → List Char → Bool
  | [], _ => true
  | _ :: _, [] => false
  | a :: as, b :: bs => a == b && startsWithChars as bs

/-- Does `needle` occur contiguously anywhere in `hay`? -/
def hasSubstrChars (needle : List Char) : List Char → Bool
  | [] => startsWithChars needle []
  | c :: rest => startsWithChars needle (c :: rest) || hasSubstrChars needle rest

/-- Python's `needle in hay` on strings: contiguous substring containment. -/
def pyInStr (needle hay : String) : Bool := hasSubstrChars needle.data hay.data

/-- One element of a table cell's `content` list as read by the population
code: its `startIndex` and whether it carries a `paragraph` key. -/
structure CellContentElem where
  startIndex : Int
  isParagraph : Bool

/-- A `tableCells` entry of a fetched table row. -/
structure TableCellElem where
  content : List CellContentElem

/-- A `tableRows` entry of a fetched table. -/
structure TableRowElem where
  tableCells : List TableCellElem

/-- A fetched `table` element. -/
structure TableElem where
  tableRows : List TableRowElem

/-- One entry of a fetched paragraph's `elements` list: its index range and
the `content` of its `textRun` when a non-empty `textRun` mapping is present. -/
structure ParaElem where
  startIndex : Int
  endIndex : Int
  textRun? : Option String

/-- A fetched `paragraph` element. -/
structure ParagraphElem where
  elements : List ParaElem

/-- The discriminating key of a fetched body `content` entry. -/
inductive BodyKind where
  | paragraph (p : ParagraphElem)
  | table (t : TableElem)
  | other

/-- One entry of `document['body']['content']`. -/
structure BodyElement where
  startIndex : Int
  endIndex : Int
  kind : BodyKind

/-- A fetched document, reduced to the `body.content` list the client reads. -/
structure Document where
  content : List BodyElement

/-- The scan `for element in reversed(content): if 'table' in element` — the
last table element of the document together with its `startIndex`. -/
def findLastTable (doc : Document) : Option (TableElem × Int) :=
  doc.content.reverse.findSome? (fun el =>
    match el.kind with
    | .table t => some (t, el.startIndex)
    | _ => none)

/-- The `content[-1]['endIndex'] - 1` append position; `IndexError` when the
content list is empty. -/
def lastEndIndex (doc : Document) : Except String Int :=
  match doc.content.getLast? with
  | none => .error "IndexError: list index out of range"
  | some el => .ok (el.endIndex - 1)

/-- First `startIndex` of a `paragraph`-keyed element of a cell's content. -/
def firstParaStart (content : List CellContentElem) : Option Int :=
  content.findSome? (fun ce => if ce.isParagraph then some ce.startIndex else none)

/-- A network call made by the client facade against the external document
service: a document fetch or a batch-update carrying the listed requests. -/
inductive NetworkCall where
  | fetch
  | update (requests : List Request)

/-- The external tabular dataset: ordered column labels plus ordered rows of
string-convertible cells (cells already stringified, as after `astype(str)`). -/
structure DataFrame where
  columns : List String
  rows : List (List String)

/-- `df.empty` in pandas: true when either axis has length zero. -/
def DataFrame.empty (df : DataFrame) : Bool :=
  df.rows.isEmpty || df.columns.isEmpty

/-- Modelled from the spec: `pandas.DataFrame.to_string(index=False)` is the
external collaborator's stringification of the dataset (§2 treats the
DataFrame-like input abstractly); it is modelled as the header row followed by
the data rows, cells joined by spaces and lines by newlines. -/
def DataFrame.toText (df : DataFrame) : String :=
  String.intercalate "\n" ((df.columns :: df.rows).map (String.intercalate " "))

/-- The plain-text fallback block appended when table population degrades. -/
def fallbackText (df : DataFrame) : String :=
  "\n\nTable Data:\n" ++ df.toText

/-- `GoogleDocsClient.append_text`: fetch the document, take
`content[-1].endIndex - 1` as the position, clean the text, and send one
update with the insert (plus a style update when a style is given). -/
def appendTextCalls (doc : Document) (text : String) (style : Option TextStyle) :
    List NetworkCall × Except String Unit :=
  match doc.content.getLast? with
  | none => ([.fetch], .error "IndexError: list index out of range")
  | some el =>
    let endIdx := el.endIndex - 1
    let text := cleanText text
    let reqs := [RequestBuilder.insert_text text endIdx] ++
      (match style with
       | some s => [RequestBuilder.update_text_style endIdx (endIdx + (text.length : Int)) s]
       | none => [])
    ([.fetch, .update reqs], .ok ())

/-- `GoogleDocsClient.format_text`: validates the range first and only then
builds and sends the single `updateTextStyle` request. -/
def format_text (_document_id : String) (start_index end_index : Int)
    (style : TextStyle) : Except String (List NetworkCall) :=
  match validate_index_range start_index end_index with
  | .error e => .error e
  | .ok _ =>
    .ok [NetworkCall.update [RequestBuilder.update_text_style start_index end_index style]]

/-- `GoogleDocsClient.delete_content`: validates the range first and only then
builds and sends the single `deleteContentRange` request. -/
def client_delete_content (_document_id : String) (start_index end_index : Int) :
    Except String (List NetworkCall) :=
  match validate_index_range start_index end_index with
  | .error e => .error e
  | .ok _ =>
    .ok [NetworkCall.update [RequestBuilder.delete_content start_index end_index]]

/-- `GoogleDocsClient.format_paragraph`: validates the range first and only
then builds and sends the single `updateParagraphStyle` request. -/
def format_paragraph (_document_id : String) (start_index end_index : Int)
    (style : ParagraphStyle) : Except String (List NetworkCall) :=
  match validate_index_range start_index end_index with
  | .error e => .error e
  | .ok _ =>
    .ok [NetworkCall.update
      [RequestBuilder.update_paragraph_style start_index end_index style]]

/-- One `inserted_texts` entry of `insert_table_from_dataframe`: cleaned text,
the service-reported start offset, and the header flag (the insert variant
stores no row/column indices in its entries). -/
structure EntryI where
  text : String
  startIndex : Int
  isHeader : Bool

/-- One `inserted_texts` entry of `replace_text_with_table_from_dataframe`,
which additionally stores the row and column indices. -/
structure EntryR where
  text : String
  startIndex : Int
  isHeader : Bool
  rowIdx : Nat
  colIdx : Nat

/-- Insertion of `x` into a list sorted ascending by `key`: `x` is placed
before the first element whose key is greater than or equal to its own.
`sortByKey` inserts each element into the already-sorted sort of the elements
after it, so among equal keys every element precedes the later-listed ones —
the stable order. -/
def insortByKey {α : Type} (key : α → Int) (x : α) : List α → List α
  | [] => [x]
  | y :: ys => if key x ≤ key y then x :: y :: ys else y :: insortByKey key x ys

/-- Stable ascending sort by an integer key — the unique stable sort, hence
the embedding of Python's `list.sort(key=...)`. -/
def sortByKey {α : Type} (key : α → Int) : List α → List α
  | [] => []
  | x :: xs => insortByKey key x (sortByKey key xs)

/-- Entries contributed by one data row of the insert variant: cells beyond
the reported cell count are dropped (the `col_idx >= len(table_cells)` break),
whitespace-only cells are skipped, and a cell contributes only when its
content has a paragraph element to take the start offset from. -/
def entriesOfRowI (isHeader : Bool) (rowData : List String)
    (cells : List TableCellElem) : List EntryI :=
  (rowData.zip cells).filterMap (fun (cellData, cell) =>
    let text := pyStrip cellData
    if text = "" then none
    else (firstParaStart cell.content).map (fun st =>
      { text := cleanText text, startIndex := st, isHeader := isHeader }))

/-- The full `inserted_texts` scan of the insert variant: data rows beyond the
reported row count are dropped (the `row_idx >= len(table_rows)` break), and
row 0 — the dataset header — is flagged as the header row. -/
def scanEntriesI (data : List (List String)) (trs : List TableRowElem) :
    List EntryI :=
  ((data.zip trs).enum).flatMap (fun (rowIdx, rowData, tr) =>
    entriesOfRowI (rowIdx == 0) rowData tr.tableCells)

/-- Entries contributed by one data row of the replace variant (identical to
the insert variant's scan but recording the row and column indices). -/
def entriesOfRowR (rowIdx : Nat) (rowData : List String)
    (cells : List TableCellElem) : List EntryR :=
  ((rowData.zip cells).enum).filterMap (fun (colIdx, cellData, cell) =>
    let text := pyStrip cellData
    if text = "" then none
    else (firstParaStart cell.content).map (fun st =>
      { text := cleanText text, startIndex := st, isHeader := rowIdx == 0,
        rowIdx := rowIdx, colIdx := colIdx }))

/-- The full `inserted_texts` scan of the replace variant. -/
def scanEntriesR (data : List (List String)) (trs : List TableRowElem) :
    List EntryR :=
  ((data.zip trs).enum).flatMap (fun (rowIdx, rowData, tr) =>
    entriesOfRowR rowIdx rowData tr.tableCells)

/-- Final value of the leaked loop variable `row_idx` after the insert
variant's scanning loop (Python `for` variables survive the loop; the
per-entry `updateTableCellStyle` requests built afterwards read them). -/
def scanFinalRow (data : List (List String)) (trs : List TableRowElem) : Nat :=
  if data.length ≤ trs.length then data.length - 1 else trs.length

/-- Final value of `col_idx` after one row's inner loop, `none` when the row
is empty and the inner loop never runs. -/
def rowFinalCol (rowData : List String) (cells : List TableCellElem) :
    Option Nat :=
  if rowData.isEmpty then none
  else if rowData.length ≤ cells.length then some (rowData.length - 1)
  else some cells.length

/-- Final value of the leaked loop variable `col_idx` after the insert
variant's scanning loop: the last row that ran its inner loop determines it
(0 stands for the never-assigned case, never read when entries exist). -/
def scanFinalCol (data : List (List String)) (trs : List TableRowElem) : Nat :=
  (data.zip trs).foldl
    (fun acc (rowData, tr) => (rowFinalCol rowData tr.tableCells).getD acc) 0

/-- The corrected-offset emission loop of the insert variant: walks the
sorted entries with the running `offset` delta, emitting the `insertText` at
`reported + offset`, the optional `updateTextStyle` over the inserted range,
and — when a table-cell style was given — an `updateTableCellStyle` that
addresses the leaked `(row_idx, col_idx)` pair, then bumps `offset` by the
text's length.  Returns the three accumulator lists. -/
def processInsertAux (headerStyle cellStyle : Option TextStyle)
    (tableCellStyle : Option TableCellStyle) (tableStart : Int)
    (lastRow lastCol : Nat) :
    List EntryI → Nat → List Request × List Request × List Request
  | [], _ => ([], [], [])
  | e :: rest, offset =>
    let start := e.startIndex + (offset : Int)
    let endIdx := start + (e.text.length : Int)
    let style := if e.isHeader then headerStyle else cellStyle
    let styleReqs := match style with
      | some s => [Request.updateTextStyle start endIdx s.toDict]
      | none => []
    let cellReqs := match tableCellStyle with
      | some t => [Request.updateTableCellStyle tableStart (lastRow : Int)
          (lastCol : Int) 1 1 t.toDict]
      | none => []
    let (a, b, c) := processInsertAux headerStyle cellStyle tableCellStyle
      tableStart lastRow lastCol rest (offset + e.text.length)
    (Request.insertText start e.text :: a, styleReqs ++ b, cellReqs ++ c)

/-- The corrected-offset emission loop of the replace variant: identical to
the insert variant's, except each `updateTableCellStyle` addresses the
entry's own stored `(row_idx, col_idx)`. -/
def processReplaceAux (headerStyle cellStyle : Option TextStyle)
    (tableCellStyle : Option TableCellStyle) (tableStart : Int) :
    List EntryR → Nat → List Request × List Request × List Request
  | [], _ => ([], [], [])
  | e :: rest, offset =>
    let start := e.startIndex + (offset : Int)
    let endIdx := start + (e.text.length : Int)
    let style := if e.isHeader then headerStyle else cellStyle
    let styleReqs := match style with
      | some s => [Request.updateTextStyle start endIdx s.toDict]
      | none => []
    let cellReqs := match tableCellStyle with
      | some t => [Request.updateTableCellStyle tableStart (e.rowIdx : Int)
          (e.colIdx : Int) 1 1 t.toDict]
      | none => []
    let (a, b, c) := processReplaceAux headerStyle cellStyle tableCellStyle
      tableStart rest (offset + e.text.length)
    (Request.insertText start e.text :: a, styleReqs ++ b, cellReqs ++ c)

/-- The three request groups of the insert variant's population step: scan,
sort ascending by reported offset, then emit with the running delta. -/
def buildInsertParts (data : List (List String)) (tableElement : TableElem)
    (tableStart : Int) (headerStyle cellStyle : Option TextStyle)
    (tableCellStyle : Option TableCellStyle) :
    List Request × List Request × List Request :=
  let entries := scanEntriesI data tableElement.tableRows
  let sorted := sortByKey (fun e => e.startIndex) entries
  processInsertAux headerStyle cellStyle tableCellStyle tableStart
    (scanFinalRow data tableElement.tableRows)
    (scanFinalCol data tableElement.tableRows) sorted 0

/-- `all_requests` of the insert variant: inserts, then text styles, then
table-cell styles. -/
def buildInsertRequests (data : List (List String)) (tableElement : TableElem)
    (tableStart : Int) (headerStyle cellStyle : Option TextStyle)
    (tableCellStyle : Option TableCellStyle) : List Request :=
  let (a, b, c) := buildInsertParts data tableElement tableStart headerStyle
    cellStyle tableCellStyle
  a ++ b ++ c

/-- The three request groups of the replace variant's population step. -/
def buildReplaceParts (data : List (List String)) (tableElement : TableElem)
    (tableStart : Int) (headerStyle cellStyle : Option TextStyle)
    (tableCellStyle : Option TableCellStyle) :
    List Request × List Request × List Request :=
  let entries := scanEntriesR data tableElement.tableRows
  let sorted := sortByKey (fun e => e.startIndex) entries
  processReplaceAux headerStyle cellStyle tableCellStyle tableStart sorted 0

/-- `all_requests` of the replace variant: inserts, then text styles, then
table-cell styles. -/
def buildReplaceRequests (data : List (List String)) (tableElement : TableElem)
    (tableStart : Int) (headerStyle cellStyle : Option TextStyle)
    (tableCellStyle : Option TableCellStyle) : List Request :=
  let (a, b, c) := buildReplaceParts data tableElement tableStart headerStyle
    cellStyle tableCellStyle
  a ++ b ++ c

/-- The body of `insert_table_from_dataframe` after the insertion index is
known: send the `insertTable` update, re-fetch (the `k`-th oracle answer),
locate the last table, and either emit the populated batch or degrade to the
plain-text append (which performs one more fetch, the `k+1`-st).  The final
`update_document` is modelled as succeeding, as the external update
collaborator is specified succeed-or-throw and `RemoteCallFailure` is outside
the verified core. -/
def insertTableGo (df : DataFrame) (data : List (List String))
    (rows columns : Int) (index : Int) (pre : List NetworkCall) (k : Nat)
    (headerStyle cellStyle : Option TextStyle)
    (tableCellStyle : Option TableCellStyle) (oracle : Nat → Document) :
    List NetworkCall × Except String Unit :=
  let pre := pre ++ [NetworkCall.update [RequestBuilder.insert_table index rows columns]]
  let document := oracle k
  let pre := pre ++ [NetworkCall.fetch]
  match findLastTable document with
  | none =>
    let (calls, out) := appendTextCalls (oracle (k + 1)) (fallbackText df) none
    (pre ++ calls, out)
  | some (tableElement, tableStart) =>
    let allRequests := buildInsertRequests data tableElement tableStart
      headerStyle cellStyle tableCellStyle
    if allRequests.isEmpty then
      let (calls, out) := appendTextCalls (oracle (k + 1)) (fallbackText df) none
      (pre ++ calls, out)
    else
      (pre ++ [NetworkCall.update allRequests], .ok ())

/-- `GoogleDocsClient.insert_table_from_dataframe`: reject an empty dataset
before any network call, otherwise determine the insertion index (fetching
once when it was not given), then run the insert-populate-or-degrade body.
`oracle n` is the external collaborator's answer to the `n`-th fetch. -/
def insertTableFromDataframe (df : DataFrame) (index? : Option Int)
    (headerStyle cellStyle : Option TextStyle)
    (tableCellStyle : Option TableCellStyle) (oracle : Nat → Document) :
    List NetworkCall × Except String Unit :=
  if df.empty then ([], .error "DataFrame is empty")
  else
    let data := df.columns :: df.rows
    let rows := (data.length : Int)
    let columns := (df.columns.length : Int)
    match index? with
    | some index =>
      insertTableGo df data rows columns index [] 0 headerStyle cellStyle
        tableCellStyle oracle
    | none =>
      match lastEndIndex (oracle 0) with
      | .error e => ([.fetch], .error e)
      | .ok index =>
        insertTableGo df data rows columns index [.fetch] 1 headerStyle
          cellStyle tableCellStyle oracle

/-- The placeholder scan of `replace_text_with_table_from_dataframe`: the
first paragraph element whose truthy `textRun` has a `content` containing the
placeholder yields that element's `[startIndex, endIndex)`. -/
def findPlaceholder (content : List BodyElement) (placeholder : String) :
    Option (Int × Int) :=
  content.findSome? (fun el =>
    match el.kind with
    | .paragraph p =>
      p.elements.findSome? (fun elem =>
        match elem.textRun? with
        | some c =>
          if pyInStr placeholder c then some (elem.startIndex, elem.endIndex)
          else none
        | none => none)
    | _ => none)

/-- All `(startIndex, table)` pairs of a fetched document, in document order. -/
def tablesOf (doc : Document) : List (Int × TableElem) :=
  doc.content.filterMap (fun el =>
    match el.kind with
    | .table t => some (el.startIndex, t)
    | _ => none)

/-- `GoogleDocsClient.replace_text_with_table_from_dataframe`: reject an empty
dataset before any network call; fetch and search for the placeholder
(returning silently when absent); delete it and insert the table in one
batch; re-fetch and pick the first table at or after the placeholder (sorted
by start), falling back to the document's last table; then populate, or
degrade to the plain-text append when no table exists or no request was
produced. -/
def replaceTextWithTableFromDataframe (df : DataFrame) (placeholder : String)
    (headerStyle cellStyle : Option TextStyle)
    (tableCellStyle : Option TableCellStyle) (oracle : Nat → Document) :
    List NetworkCall × Except String Unit :=
  if df.empty then ([], .error "DataFrame is empty")
  else
    let document := oracle 0
    match findPlaceholder document.content placeholder with
    | none => ([.fetch], .ok ())
    | some (pStart, pEnd) =>
      let data := df.columns :: df.rows
      let rows := (data.length : Int)
      let columns := (df.columns.length : Int)
      let batch := [Request.deleteContentRange pStart pEnd,
                    Request.insertTable pStart rows columns]
      let updatedDoc := oracle 1
      let tables := tablesOf updatedDoc
      let pre := [NetworkCall.fetch, NetworkCall.update batch, NetworkCall.fetch]
      let chosen :=
        match (sortByKey (fun p => p.1) tables).find?
            (fun p => decide (pStart ≤ p.1)) with
        | some p => some p
        | none => tables.getLast?
      match chosen with
      | none =>
        let (calls, out) := appendTextCalls (oracle 2) (fallbackText df) none
        (pre ++ calls, out)
      | some (tableStart, tableElement) =>
        let allRequests := buildReplaceRequests data tableElement tableStart
          headerStyle cellStyle tableCellStyle
        if allRequests.isEmpty then
          let (calls, out) := appendTextCalls (oracle 2) (fallbackText df) none
          (pre ++ calls, out)
        else
          (pre ++ [NetworkCall.update allRequests], .ok ())

/-- A Python value as handled by `DocumentParser` over a fetched document:
strings, integers, booleans, `None`, lists and string-keyed dicts (modelled as
insertion-ordered association lists with distinct keys). -/
inductive PyVal where
  | str (s : String)
  | int (n : Int)
  | boolV (b : Bool)
  | noneV
  | list (items : List PyVal)
  | dict (entries : List (String × PyVal))

/-- First-match lookup in an association list (dict keys are distinct). -/
def alistGet (es : List (String × PyVal)) (key : String) : Option PyVal :=
  match es with
  | [] => none
  | (k, v) :: rest => if k = key then some v else alistGet rest key

/-- Python `v.get(key, default)`: only dicts have `.get`; anything else
raises `AttributeError`. -/
def pyDictGet (v : PyVal) (key : String) (default : PyVal) :
    Except String PyVal :=
  match v with
  | .dict es => .ok ((alistGet es key).getD default)
  | _ => .error "AttributeError: no attribute get"

/-- Python iteration `for x in v`: lists yield their items, strings their
one-character strings, dicts their keys; other values raise `TypeError`. -/
def pyIterList (v : PyVal) : Except String (List PyVal) :=
  match v with
  | .list xs => .ok xs
  | .str s => .ok (s.data.map (fun c => .str (String.singleton c)))
  | .dict es => .ok (es.map (fun kv => .str kv.1))
  | _ => .error "TypeError: object is not iterable"

/-- Python `key in v` for a string `key`: key containment for dicts,
substring containment for strings, membership for lists (a string equals only
an equal string); other values raise `TypeError`. -/
def pyContains (v : PyVal) (key : String) : Except String Bool :=
  match v with
  | .dict es => .ok (es.any (fun kv => kv.1 == key))
  | .str s => .ok (pyInStr key s)
  | .list xs => .ok (xs.any (fun x =>
      match x with
      | .str t => t == key
      | _ => false))
  | _ => .error "TypeError: argument of type is not iterable"

/-- Python `v[key]` for a string `key`: dict lookup raising `KeyError` when
the key is absent; subscripting anything else with a string raises
`TypeError`. -/
def pySubscript (v : PyVal) (key : String) : Except String PyVal :=
  match v with
  | .dict es =>
    match alistGet es key with
    | some x => .ok x
    | none => .error "KeyError"
  | _ => .error "TypeError: indices must be integers"

/-- The inner loop of `extract_text_content` over one paragraph's `elements`:
collect `para_element['textRun']['content']` for every element carrying a
`textRun` key. -/
def textPartsOfParaElems : List PyVal → Except String (List PyVal)
  | [] => .ok []
  | pe :: rest => do
    let b ← pyContains pe "textRun"
    let here ←
      if b then do
        let tr ← pySubscript pe "textRun"
        let c ← pySubscript tr "content"
        pure [c]
      else pure []
    let tail ← textPartsOfParaElems rest
    pure (here ++ tail)

/-- The outer loop of `extract_text_content` over the body content list. -/
def textPartsOfContent : List PyVal → Except String (List PyVal)
  | [] => .ok []
  | element :: rest => do
    let b ← pyContains element "paragraph"
    let here ←
      if b then do
        let paragraph ← pySubscript element "paragraph"
        let pes ← pyDictGet paragraph "elements" (.list [])
        let pesL ← pyIterList pes
        textPartsOfParaElems pesL
      else pure []
    let tail ← textPartsOfContent rest
    pure (here ++ tail)

/-- `"".join(text_parts)`: concatenates the collected parts left to right,
raising `TypeError` at the first non-string part. -/
def joinStrParts : List PyVal → Except String String
  | [] => .ok ""
  | .str t :: rest => (joinStrParts rest).map (fun s => t ++ s)
  | _ :: _ => .error "TypeError: sequence item expected str"

/-- `DocumentParser.extract_text_content` over a raw document mapping. -/
def extract_text_content (document : List (String × PyVal)) :
    Except String String := do
  let body := (alistGet document "body").getD (.dict [])
  let content ← pyDictGet body "content" (.list [])
  let elems ← pyIterList content
  let parts ← textPartsOfContent elems
  joinStrParts parts

/-- The loop of `extract_paragraphs`: collect `element['paragraph']` for every
`paragraph`-keyed content element. -/
def paragraphsOfContent : List PyVal → Except String (List PyVal)
  | [] => .ok []
  | element :: rest => do
    let b ← pyContains element "paragraph"
    let here ←
      if b then do
        let p ← pySubscript element "paragraph"
        pure [p]
      else pure []
    let tail ← paragraphsOfContent rest
    pure (here ++ tail)

/-- `DocumentParser.extract_paragraphs` over a raw document mapping. -/
def extract_paragraphs (document : List (String × PyVal)) :
    Except String (List PyVal) := do
  let body := (alistGet document "body").getD (.dict [])
  let content ← pyDictGet body "content" (.list [])
  let elems ← pyIterList content
  paragraphsOfContent elems

/-- The loop of `extract_tables`: collect `element['table']` for every
`table`-keyed content element. -/
def tablesOfContent : List PyVal → Except String (List PyVal)
  | [] => .ok []
  | element :: rest => do
    let b ← pyContains element "table"
    let here ←
      if b then do
        let t ← pySubscript element "table"
        pure [t]
      else pure []
    let tail ← tablesOfContent rest
    pure (here ++ tail)

/-- `DocumentParser.extract_tables` over a raw document mapping. -/
def extract_tables (document : List (String × PyVal)) :
    Except String (List PyVal) := do
  let body := (alistGet document "body").getD (.dict [])
  let content ← pyDictGet body "content" (.list [])
  let elems ← pyIterList content
  tablesOfContent elems

/-- Well-formedness of one paragraph `elements` entry for the extraction
functions: a mapping whose `textRun`, when present, is a mapping containing a
string `content`. -/
def wfParaElem (pe : PyVal) : Bool :=
  match pe with
  | .dict es =>
    match alistGet es "textRun" with
    | none => true
    | some (.dict tr) =>
      match alistGet tr "content" with
      | some (.str _) => true
      | _ => false
    | some _ => false
  | _ => false

/-- Well-formedness of one body content element: a mapping whose `paragraph`,
when present, is a mapping whose `elements`, when present, is a list of
well-formed paragraph elements. -/
def wfElement (element : PyVal) : Bool :=
  match element with
  | .dict es =>
    match alistGet es "paragraph" with
    | none => true
    | some (.dict pes) =>
      match alistGet pes "elements" with
      | none => true
      | some (.list l) => l.all wfParaElem
      | some _ => false
    | some _ => false
  | _ => false

/-- Well-formedness of a raw document mapping for the extraction functions:
`body`, when present, is a mapping; its `content`, when present, is a list of
well-formed elements.  Missing keys and an empty content list are
well-formed. -/
def wfDocument (document : List (String × PyVal)) : Bool :=
  match (alistGet document "body").getD (.dict []) with
  | .dict bes =>
    match (alistGet bes "content").getD (.list []) with
    | .list elems => elems.all wfElement
    | _ => false
  | _ => false

/-- Membership in a `setIf` block: the key matches and the field is set to
exactly that value. -/
theorem mem_setIf {p : String × WireVal} {k : String} {v : Option WireVal} :
    p ∈ setIf k v ↔ p.1 = k ∧ v = some p.2 := by
  cases v with
  | none => simp [setIf]
  | some w =>
    cases p with
    | mk a b => simp [setIf, Prod.ext_iff, eq_comm, and_comm]

/-- `setIf` is empty exactly when the field is unset. -/
theorem setIf_eq_nil {k : String} {v : Option WireVal} :
    setIf k v = [] ↔ v = none := by
  cases v <;> simp [setIf]

/-- Claim C8: serializing a `TextStyle` to its wire mapping includes a field
iff that field is explicitly set: a style with no fields set serializes to
the empty mapping (and conversely only such a style does), and a style with
`bold` explicitly set to `False` serializes to a mapping containing the entry
`bold = False`, which is present exactly when `bold` is set to `False`. -/
theorem c8_style_serialization :
    (TextStyle.toDict {} = []) ∧
    (∀ t : TextStyle, t.toDict = [] ↔ t = {}) ∧
    (∀ t : TextStyle,
      (("bold", WireVal.boolV false) ∈ t.toDict ↔ t.bold = some false)) := by
  refine ⟨rfl, ?_, ?_⟩
  · intro t
    cases t
    simp only [TextStyle.toDict, List.append_eq_nil, setIf_eq_nil,
      Option.map_eq_none', TextStyle.mk.injEq]
    tauto
  · intro t
    constructor
    · intro h
      simp only [TextStyle.toDict, List.mem_append, mem_setIf] at h
      rcases h with ((((((((((⟨hk, hv⟩ | ⟨hk, hv⟩) | ⟨hk, hv⟩) | ⟨hk, hv⟩) |
        ⟨hk, hv⟩) | ⟨hk, hv⟩) | ⟨hk, hv⟩) | ⟨hk, hv⟩) | ⟨hk, hv⟩) |
        ⟨hk, hv⟩) | ⟨hk, hv⟩) <;>
      first
      | exact absurd hk (by decide)
      | (cases hb : t.bold with
         | none => rw [hb] at hv; simp at hv
         | some x =>
           rw [hb] at hv
           simp only [Option.map_some', Option.some.injEq, WireVal.boolV.injEq] at hv
           rw [hv])
    · intro h
      simp only [TextStyle.toDict, List.mem_append, mem_setIf, h]
      simp

/-- Claim C4 (counterexample): `RequestBuilder.delete_content` and
`RequestBuilder.update_text_style` accept the invalid ranges `[5, 5)` and
`[0, 0)` and return complete operation objects instead of rejecting them with
an error, refuting the claim that every Request Builder range function raises
a validation error for `end ≤ start` or `start < 1` before building. -/
theorem c4_counterexample :
    RequestBuilder.delete_content 5 5 = Request.deleteContentRange 5 5 ∧
    RequestBuilder.update_text_style 5 5 {} = Request.updateTextStyle 5 5 [] ∧
    RequestBuilder.update_paragraph_style 0 0 {} =
      Request.updateParagraphStyle 0 0 [] := by
  exact ⟨rfl, rfl, rfl⟩

/-- Claim C4 (amended): the Request Builder range functions perform no range
validation and return the built operation for arbitrary indices; range
rejection lives in `validate_index_range` — which accepts exactly the ranges
with `1 ≤ start < end` and otherwise raises `ValueError` — and the client
facade's `format_text`, `format_paragraph` and `delete_content` run that
validation before building or sending anything (their results are the
validation outcome mapped over the single built request). -/
theorem c4_no_builder_validation (s e : Int) (ts : TextStyle)
    (ps : ParagraphStyle) (docId : String) :
    RequestBuilder.update_text_style s e ts = Request.updateTextStyle s e ts.toDict ∧
    RequestBuilder.update_paragraph_style s e ps =
      Request.updateParagraphStyle s e ps.toDict ∧
    RequestBuilder.delete_content s e = Request.deleteContentRange s e ∧
    (validate_index_range s e = .ok () ↔ 1 ≤ s ∧ s < e) ∧
    client_delete_content docId s e = (validate_index_range s e).map
      (fun _ => [NetworkCall.update [RequestBuilder.delete_content s e]]) ∧
    format_text docId s e ts = (validate_index_range s e).map
      (fun _ => [NetworkCall.update [RequestBuilder.update_text_style s e ts]]) ∧
    format_paragraph docId s e ps = (validate_index_range s e).map
      (fun _ => [NetworkCall.update
        [RequestBuilder.update_paragraph_style s e ps]]) := by
  refine ⟨rfl, rfl, rfl, ?_, ?_, ?_, ?_⟩
  · unfold validate_index_range
    split
    · constructor
      · intro h
        cases h
      · intro h
        omega
    · split
      · constructor
        · intro h
          cases h
        · intro h
          omega
      · simp
        omega
  · cases h : validate_index_range s e <;>
      simp [client_delete_content, h, Except.map]
  · cases h : validate_index_range s e <;>
      simp [format_text, h, Except.map]
  · cases h : validate_index_range s e <;>
      simp [format_paragraph, h, Except.map]

/-- Witness for C4's amended theorem at the concrete range `[5, 6)`. -/
theorem c4_no_builder_validation_witness :
    RequestBuilder.delete_content 5 6 = Request.deleteContentRange 5 6 ∧
    (validate_index_range 5 6 = .ok () ↔ 1 ≤ (5 : Int) ∧ (5 : Int) < 6) := by
  have h := c4_no_builder_validation 5 6 {} {} "doc"
  exact ⟨h.2.2.1, h.2.2.2.1⟩

/-- Claim C5: `format_text` with `start_index = end_index = 5` raises the
`ValueError` of the end-index check, and with `start_index = 0` (any end)
raises the `ValueError` of the start-index check; in both cases the result is
the bare error — no update request is built or sent (the call list is only
produced on the `ok` path). -/
theorem c5_format_text_validation (docId : String) (style : TextStyle)
    (e : Int) :
    format_text docId 5 5 style = .error "End index must be > start index" ∧
    format_text docId 0 e style = .error "Start index must be >= 1" := by
  constructor
  · rfl
  · simp [format_text, validate_index_range]

/-- Claim C3 (counterexample): a fresh batch builder's `insert_text` with an
explicit text style appends only the `insertText` operation — no
`updateTextStyle` operation appears in the accumulated requests — refuting
the claim that a non-None style makes the builder append an
`updateTextStyle` over the inserted range. -/
theorem c3_counterexample :
    (BatchRequestBuilder.new.insert_text "hi" (some { bold := some true })).requests
      = [Request.insertText 1 "hi"] ∧
    ((BatchRequestBuilder.new.insert_text "hi" (some { bold := some true })).requests.all
      (fun r => !r.isUpdateTextStyle)) = true := by
  exact ⟨rfl, rfl⟩

/-- Claim C3 (amended): for every call to the batch builder's `insert_text`,
with or without a text style, exactly one `insertText` operation at the
current cursor is appended — the style argument is ignored (the source notes
the style must be applied separately) and no `updateTextStyle` is ever
appended — and the cursor advances by `len(text)`. -/
theorem c3_insert_text_ignores_style (b : BatchRequestBuilder) (text : String)
    (style : Option TextStyle) :
    (b.insert_text text style).requests =
      b.requests ++ [Request.insertText b.currentIndex text] ∧
    (b.insert_text text style).currentIndex =
      b.currentIndex + (text.length : Int) := by
  exact ⟨rfl, rfl⟩

/-- One batch-builder call advances the cursor by exactly its Python-length
unit count. -/
theorem BCall.apply_currentIndex (b : BatchRequestBuilder) (c : BCall) :
    (BCall.apply b c).currentIndex = b.currentIndex + (c.pyUnits : Int) := by
  have hn : ("\n" : String).length = 1 := rfl
  cases c with
  | insertText text style => rfl
  | insertBreak => rfl
  | insertParagraph text ts ps =>
    by_cases ht : text = ""
    · subst ht
      cases ps <;>
        simp [BCall.apply, BatchRequestBuilder.insert_paragraph,
          BatchRequestBuilder.insert_text, BCall.pyUnits, hn]
    · cases ps <;>
        simp [BCall.apply, BatchRequestBuilder.insert_paragraph,
          BatchRequestBuilder.insert_text, BCall.pyUnits, ht, hn] <;>
        ring

/-- Folding calls over any builder adds the total unit count to the cursor. -/
theorem foldl_apply_currentIndex (calls : List BCall) (b : BatchRequestBuilder) :
    (calls.foldl BCall.apply b).currentIndex =
      b.currentIndex + ((calls.map BCall.pyUnits).sum : Int) := by
  induction calls generalizing b with
  | nil => simp
  | cons c cs ih =>
    simp only [List.foldl_cons, List.map_cons, List.sum_cons]
    rw [ih, BCall.apply_currentIndex]
    push_cast
    ring

/-- Claim C2 (counterexample): inserting the single astral code point U+1D11E
(one Python character, two UTF-16 code units) leaves the cursor at 2 — `1 +`
the Python length — while `1 +` the UTF-16 code-unit total is 3, refuting the
claim that the cursor tracks UTF-16 code-unit lengths, under which multi-unit
code points count per unit. -/
theorem c2_counterexample :
    (runCalls [BCall.insertText (String.singleton (Char.ofNat 0x1D11E)) none]).currentIndex
       = 2 ∧
    1 + (([BCall.insertText (String.singleton (Char.ofNat 0x1D11E)) none].map
      BCall.utf16Units).sum : Int) = 3 ∧
    (decide ((runCalls [BCall.insertText (String.singleton (Char.ofNat 0x1D11E)) none]).currentIndex
       = 1 + (([BCall.insertText (String.singleton (Char.ofNat 0x1D11E)) none].map
         BCall.utf16Units).sum : Int))) = false := by
  refine ⟨rfl, ?_, by decide⟩
  decide

/-- Claim C2 (amended): for every sequence of `insert_text`,
`insert_paragraph`, and page-break calls on a fresh batch builder, the cursor
equals `1 +` the sum of the Python `len` of all text inserted so far — the
number of code points, counting each paragraph break and page break as 1;
code points above U+FFFF count as one unit each, not per UTF-16 code unit. -/
theorem c2_cursor_invariant (calls : List BCall) :
    (runCalls calls).currentIndex = 1 + ((calls.map BCall.pyUnits).sum : Int) := by
  unfold runCalls
  rw [foldl_apply_currentIndex]
  rfl

/-- Claim C6: for every dataset with zero data rows, both table-population
entry points reject it with the `DataFrame is empty` `ValueError` and their
network-call traces are empty — the error is raised synchronously before any
fetch or update call. -/
theorem c6_empty_dataset (df : DataFrame) (h : df.rows = [])
    (index? : Option Int) (hs cs : Option TextStyle)
    (tcs : Option TableCellStyle) (oracle oracle2 : Nat → Document)
    (placeholder : String) :
    insertTableFromDataframe df index? hs cs tcs oracle =
      ([], .error "DataFrame is empty") ∧
    replaceTextWithTableFromDataframe df placeholder hs cs tcs oracle2 =
      ([], .error "DataFrame is empty") := by
  have he : df.empty = true := by
    simp [DataFrame.empty, h]
  constructor
  · simp [insertTableFromDataframe, he]
  · simp [replaceTextWithTableFromDataframe, he]

/-- A dataset with one column and zero data rows. -/
def dfNoRows : DataFrame := ⟨["a"], []⟩

/-- An oracle whose every fetch answers the empty document. -/
def emptyDocOracle : Nat → Document := fun _ => ⟨[]⟩

/-- Witness for C6 at a concrete zero-row dataset. -/
theorem c6_empty_dataset_witness :
    dfNoRows.rows = [] ∧
    (insertTableFromDataframe dfNoRows none none none none emptyDocOracle =
      ([], .error "DataFrame is empty") ∧
    replaceTextWithTableFromDataframe dfNoRows "-TBL-" none none none
      emptyDocOracle = ([], .error "DataFrame is empty")) := by
  exact ⟨rfl, c6_empty_dataset dfNoRows rfl none none none none emptyDocOracle
    emptyDocOracle "-TBL-"⟩

/-- The `insertText` offsets of a request list, in order. -/
def insertOffsets (rs : List Request) : List Int :=
  rs.filterMap (fun r =>
    match r with
    | .insertText i _ => some i
    | _ => none)

/-- The three-cell dataset of the reordering property: a header row with
texts of lengths 5, 3, 4 and one data row of whitespace-only (skipped)
cells. -/
def c1data : List (List String) := [["aaaaa", "bbb", "cccc"], [" ", " ", " "]]

/-- A reported table cell whose first paragraph starts at `n`. -/
def c1cell (n : Int) : TableCellElem := ⟨[⟨n, true⟩]⟩

/-- A reported table structure whose header-row cells report start offsets
50, 10 and 30 for the texts of lengths 5, 3 and 4 respectively. -/
def c1table : TableElem :=
  ⟨[⟨[c1cell 50, c1cell 10, c1cell 30]⟩, ⟨[c1cell 90, c1cell 91, c1cell 92]⟩]⟩

/-- Claim C1 (counterexample): with reported offsets `[50, 10, 30]` and text
lengths `[5, 3, 4]`, the population algorithm emits insert offsets
`[10, 33, 57]` — the third effective offset is `50 + 3 + 4 = 57`, not the 59
the claim states. -/
theorem c1_counterexample :
    insertOffsets (buildInsertRequests c1data c1table 1 none none none) =
      [10, 33, 57] ∧
    (decide (insertOffsets (buildInsertRequests c1data c1table 1 none none none) =
      [10, 33, 59])) = false := by
  exact ⟨rfl, by decide⟩

/-- Claim C1 (amended): when three non-empty cells report start offsets
`[50, 10, 30]` with texts of code-unit lengths `[5, 3, 4]`, processing in
ascending reported order (10, 30, 50) with the running delta yields corrected
effective insert offsets 10, 33, 57 (`30 + 3`, `50 + 3 + 4`), and the emitted
`InsertText` operations carry exactly these offsets in exactly this order. -/
theorem c1_table_reorder :
    buildInsertRequests c1data c1table 1 none none none =
      [Request.insertText 10 "bbb", Request.insertText 33 "cccc",
       Request.insertText 57 "aaaaa"] ∧
    insertOffsets (buildInsertRequests c1data c1table 1 none none none) =
      [10, 33, 57] := by
  exact ⟨rfl, rfl⟩

/-- Membership after stable insertion: the inserted element or an original
one. -/
theorem mem_insortByKey {α : Type} (key : α → Int) (x y : α) (l : List α) :
    y ∈ insortByKey key x l ↔ y = x ∨ y ∈ l := by
  induction l with
  | nil => simp [insortByKey]
  | cons z zs ih =>
    simp only [insortByKey]
    split
    · simp [List.mem_cons]
    · simp only [List.mem_cons, ih]
      tauto

/-- Stable insertion preserves ascending-by-key ordering. -/
theorem pairwise_insortByKey {α : Type} (key : α → Int) (x : α) (l : List α)
    (h : List.Pairwise (fun a b => key a ≤ key b) l) :
    List.Pairwise (fun a b => key a ≤ key b) (insortByKey key x l) := by
  induction l with
  | nil => simp [insortByKey]
  | cons z zs ih =>
    rw [List.pairwise_cons] at h
    obtain ⟨hz, hzs⟩ := h
    simp only [insortByKey]
    split
    · rename_i hle
      rw [List.pairwise_cons]
      refine ⟨?_, ?_⟩
      · intro y hy
        rcases List.mem_cons.mp hy with rfl | hy2
        · exact hle
        · exact le_trans hle (hz y hy2)
      · rw [List.pairwise_cons]
        exact ⟨hz, hzs⟩
    · rename_i hgt
      rw [List.pairwise_cons]
      refine ⟨?_, ih hzs⟩
      intro y hy
      rcases (mem_insortByKey key x y zs).mp hy with rfl | hy2
      · exact le_of_not_le hgt
      · exact hz y hy2

/-- The stable sort is sorted ascending by its key. -/
theorem pairwise_sortByKey {α : Type} (key : α → Int) (l : List α) :
    List.Pairwise (fun a b => key a ≤ key b) (sortByKey key l) := by
  induction l with
  | nil => simp [sortByKey]
  | cons x xs ih =>
    simp only [sortByKey]
    exact pairwise_insortByKey key x _ ih

/-- The insert variant's emission loop yields homogeneous groups: only
`insertText` in the first, only `updateTextStyle` in the second, only
`updateTableCellStyle` in the third. -/
theorem processInsertAux_shape (hs cs : Option TextStyle)
    (tcs : Option TableCellStyle) (tS : Int) (lr lc : Nat)
    (es : List EntryI) (off : Nat) :
    ((processInsertAux hs cs tcs tS lr lc es off).1.all Request.isInsertText) = true ∧
    ((processInsertAux hs cs tcs tS lr lc es off).2.1.all Request.isUpdateTextStyle) = true ∧
    ((processInsertAux hs cs tcs tS lr lc es off).2.2.all Request.isUpdateTableCellStyle) = true := by
  induction es generalizing off with
  | nil => exact ⟨rfl, rfl, rfl⟩
  | cons e rest ih =>
    obtain ⟨h1, h2, h3⟩ := ih (off + e.text.length)
    simp only [processInsertAux, List.all_cons, List.all_append]
    cases hst : (if e.isHeader then hs else cs) <;> cases tcs <;>
      simp_all [Request.isInsertText, Request.isUpdateTextStyle,
        Request.isUpdateTableCellStyle]

/-- The replace variant's emission loop yields homogeneous groups. -/
theorem processReplaceAux_shape (hs cs : Option TextStyle)
    (tcs : Option TableCellStyle) (tS : Int) (es : List EntryR) (off : Nat) :
    ((processReplaceAux hs cs tcs tS es off).1.all Request.isInsertText) = true ∧
    ((processReplaceAux hs cs tcs tS es off).2.1.all Request.isUpdateTextStyle) = true ∧
    ((processReplaceAux hs cs tcs tS es off).2.2.all Request.isUpdateTableCellStyle) = true := by
  induction es generalizing off with
  | nil => exact ⟨rfl, rfl, rfl⟩
  | cons e rest ih =>
    obtain ⟨h1, h2, h3⟩ := ih (off + e.text.length)
    simp only [processReplaceAux, List.all_cons, List.all_append]
    cases hst : (if e.isHeader then hs else cs) <;> cases tcs <;>
      simp_all [Request.isInsertText, Request.isUpdateTextStyle,
        Request.isUpdateTableCellStyle]

/-- The effective offsets produced by walking entries with the running
delta. -/
def offListI : List EntryI → Nat → List Int
  | [], _ => []
  | e :: r, off => (e.startIndex + (off : Int)) :: offListI r (off + e.text.length)

/-- The effective offsets produced by the replace variant's walk. -/
def offListR : List EntryR → Nat → List Int
  | [], _ => []
  | e :: r, off => (e.startIndex + (off : Int)) :: offListR r (off + e.text.length)

/-- The insert group's offsets are exactly the delta-walk offsets. -/
theorem insertOffsets_processInsertAux (hs cs : Option TextStyle)
    (tcs : Option TableCellStyle) (tS : Int) (lr lc : Nat)
    (es : List EntryI) (off : Nat) :
    insertOffsets (processInsertAux hs cs tcs tS lr lc es off).1 =
      offListI es off := by
  induction es generalizing off with
  | nil => rfl
  | cons e rest ih =>
    simp only [processInsertAux, offListI, insertOffsets, List.filterMap_cons]
    rw [← insertOffsets, ih]

/-- The replace variant's insert-group offsets are the delta-walk offsets. -/
theorem insertOffsets_processReplaceAux (hs cs : Option TextStyle)
    (tcs : Option TableCellStyle) (tS : Int) (es : List EntryR) (off : Nat) :
    insertOffsets (processReplaceAux hs cs tcs tS es off).1 =
      offListR es off := by
  induction es generalizing off with
  | nil => rfl
  | cons e rest ih =>
    simp only [processReplaceAux, offListR, insertOffsets, List.filterMap_cons]
    rw [← insertOffsets, ih]

/-- Entries sorted ascending by reported offset give weakly increasing
effective offsets: the delta only grows, so each later insert lands at or
after every earlier one. -/
theorem chain_offListI (es : List EntryI) (off : Nat)
    (h : List.Pairwise (fun a b : EntryI => a.startIndex ≤ b.startIndex) es) :
    List.Chain' (· ≤ ·) (offListI es off) := by
  induction es generalizing off with
  | nil => simp [offListI]
  | cons e rest ih =>
    rw [List.pairwise_cons] at h
    obtain ⟨he, hrest⟩ := h
    cases rest with
    | nil => simp [offListI]
    | cons e2 r2 =>
      simp only [offListI, List.chain'_cons]
      refine ⟨?_, ?_⟩
      · have h2 := he e2 (by simp)
        omega
      · have := ih (off + e.text.length) hrest
        simpa [offListI] using this

/-- Sorted replace-variant entries give weakly increasing effective
offsets. -/
theorem chain_offListR (es : List EntryR) (off : Nat)
    (h : List.Pairwise (fun a b : EntryR => a.startIndex ≤ b.startIndex) es) :
    List.Chain' (· ≤ ·) (offListR es off) := by
  induction es generalizing off with
  | nil => simp [offListR]
  | cons e rest ih =>
    rw [List.pairwise_cons] at h
    obtain ⟨he, hrest⟩ := h
    cases rest with
    | nil => simp [offListR]
    | cons e2 r2 =>
      simp only [offListR, List.chain'_cons]
      refine ⟨?_, ?_⟩
      · have h2 := he e2 (by simp)
        omega
      · have := ih (off + e.text.length) hrest
        simpa [offListR] using this

/-- Claim C9: for every dataset and reported table structure, both table
population variants return exactly the concatenation of their three
homogeneous request groups — all `insertText` operations (whose offsets are
ascending), then all `updateTextStyle` operations, then all
`updateTableCellStyle` operations — with no interleaving. -/
theorem c9_grouping (data : List (List String)) (te : TableElem) (tS : Int)
    (hs cs : Option TextStyle) (tcs : Option TableCellStyle) :
    (buildInsertRequests data te tS hs cs tcs =
      (buildInsertParts data te tS hs cs tcs).1 ++
      (buildInsertParts data te tS hs cs tcs).2.1 ++
      (buildInsertParts data te tS hs cs tcs).2.2) ∧
    ((buildInsertParts data te tS hs cs tcs).1.all Request.isInsertText) = true ∧
    ((buildInsertParts data te tS hs cs tcs).2.1.all Request.isUpdateTextStyle) = true ∧
    ((buildInsertParts data te tS hs cs tcs).2.2.all Request.isUpdateTableCellStyle) = true ∧
    List.Chain' (· ≤ ·) (insertOffsets (buildInsertParts data te tS hs cs tcs).1) ∧
    (buildReplaceRequests data te tS hs cs tcs =
      (buildReplaceParts data te tS hs cs tcs).1 ++
      (buildReplaceParts data te tS hs cs tcs).2.1 ++
      (buildReplaceParts data te tS hs cs tcs).2.2) ∧
    ((buildReplaceParts data te tS hs cs tcs).1.all Request.isInsertText) = true ∧
    ((buildReplaceParts data te tS hs cs tcs).2.1.all Request.isUpdateTextStyle) = true ∧
    ((buildReplaceParts data te tS hs cs tcs).2.2.all Request.isUpdateTableCellStyle) = true ∧
    List.Chain' (· ≤ ·) (insertOffsets (buildReplaceParts data te tS hs cs tcs).1) := by
  obtain ⟨hi1, hi2, hi3⟩ := processInsertAux_shape hs cs tcs tS
    (scanFinalRow data te.tableRows) (scanFinalCol data te.tableRows)
    (sortByKey (fun e => e.startIndex) (scanEntriesI data te.tableRows)) 0
  obtain ⟨hr1, hr2, hr3⟩ := processReplaceAux_shape hs cs tcs tS
    (sortByKey (fun e => e.startIndex) (scanEntriesR data te.tableRows)) 0
  refine ⟨rfl, hi1, hi2, hi3, ?_, rfl, hr1, hr2, hr3, ?_⟩
  · rw [show (buildInsertParts data te tS hs cs tcs).1 =
      (processInsertAux hs cs tcs tS (scanFinalRow data te.tableRows)
        (scanFinalCol data te.tableRows)
        (sortByKey (fun e => e.startIndex) (scanEntriesI data te.tableRows)) 0).1
      from rfl]
    rw [insertOffsets_processInsertAux]
    exact chain_offListI _ 0 (pairwise_sortByKey _ _)
  · rw [show (buildReplaceParts data te tS hs cs tcs).1 =
      (processReplaceAux hs cs tcs tS
        (sortByKey (fun e => e.startIndex) (scanEntriesR data te.tableRows)) 0).1
      from rfl]
    rw [insertOffsets_processReplaceAux]
    exact chain_offListR _ 0 (pairwise_sortByKey _ _)

/-- Claim C7: when the post-insert re-fetch reports no table element, neither
population variant raises: each performs exactly one plain-text append — a
single update carrying one `insertText` whose text is the cleaned
`"\n\nTable Data:\n"`-prefixed stringification of the dataset — and the
traces contain zero `updateTableCellStyle` operations (the one text update is
the only population output). -/
theorem c7_no_table_fallback (df : DataFrame) (idx : Int)
    (hs cs : Option TextStyle) (tcs : Option TableCellStyle)
    (oracle : Nat → Document) (df2 : DataFrame) (ph : String)
    (hs2 cs2 : Option TextStyle) (tcs2 : Option TableCellStyle)
    (oracle2 : Nat → Document) (pS pE : Int)
    (h1 : df.empty = false)
    (h2 : findLastTable (oracle 0) = none)
    (h3 : ((oracle 1).content.getLast?).isSome = true)
    (h4 : df2.empty = false)
    (h5 : findPlaceholder (oracle2 0).content ph = some (pS, pE))
    (h6 : tablesOf (oracle2 1) = [])
    (h7 : ((oracle2 2).content.getLast?).isSome = true) :
    (∃ e, insertTableFromDataframe df (some idx) hs cs tcs oracle =
      ([.update [RequestBuilder.insert_table idx
          ((df.columns :: df.rows).length : Int) (df.columns.length : Int)],
        .fetch, .fetch,
        .update [Request.insertText e (cleanText (fallbackText df))]], .ok ())) ∧
    (∃ e, replaceTextWithTableFromDataframe df2 ph hs2 cs2 tcs2 oracle2 =
      ([.fetch,
        .update [Request.deleteContentRange pS pE,
          Request.insertTable pS ((df2.columns :: df2.rows).length : Int)
            (df2.columns.length : Int)],
        .fetch, .fetch,
        .update [Request.insertText e (cleanText (fallbackText df2))]], .ok ())) := by
  constructor
  · obtain ⟨el, hel⟩ := Option.isSome_iff_exists.mp h3
    refine ⟨el.endIndex - 1, ?_⟩
    simp [insertTableFromDataframe, h1, insertTableGo, h2, appendTextCalls,
      hel, RequestBuilder.insert_text]
  · obtain ⟨el2, hel2⟩ := Option.isSome_iff_exists.mp h7
    refine ⟨el2.endIndex - 1, ?_⟩
    simp [replaceTextWithTableFromDataframe, h4, h5, h6, appendTextCalls,
      hel2, RequestBuilder.insert_text, sortByKey]

/-- A one-column, one-row dataset for the fallback witness. -/
def c7df : DataFrame := ⟨["h"], [["v"]]⟩

/-- Oracle for the insert variant's fallback witness: the post-insert fetch
(answer 0) has no table, the append fetch (answer 1) has content. -/
def c7oracle : Nat → Document := fun n =>
  match n with
  | 0 => ⟨[⟨0, 5, .other⟩]⟩
  | _ => ⟨[⟨0, 9, .other⟩]⟩

/-- Oracle for the replace variant's fallback witness: the first fetch holds
the placeholder paragraph, the post-insert fetch has no table, the append
fetch has content. -/
def c7oracle2 : Nat → Document := fun n =>
  match n with
  | 0 => ⟨[⟨1, 10, .paragraph ⟨[⟨1, 8, some "XX-TBL-YY"⟩]⟩⟩]⟩
  | 1 => ⟨[⟨0, 3, .other⟩]⟩
  | _ => ⟨[⟨0, 7, .other⟩]⟩

/-- Witness for C7 at concrete datasets and oracles whose re-fetch reports no
table. -/
theorem c7_no_table_fallback_witness :
    (c7df.empty = false ∧
     findLastTable (c7oracle 0) = none ∧
     ((c7oracle 1).content.getLast?).isSome = true ∧
     findPlaceholder (c7oracle2 0).content "-TBL-" = some (1, 8) ∧
     tablesOf (c7oracle2 1) = [] ∧
     ((c7oracle2 2).content.getLast?).isSome = true) ∧
    ((∃ e, insertTableFromDataframe c7df (some 3) none none none c7oracle =
      ([.update [RequestBuilder.insert_table 3
          ((c7df.columns :: c7df.rows).length : Int) (c7df.columns.length : Int)],
        .fetch, .fetch,
        .update [Request.insertText e (cleanText (fallbackText c7df))]], .ok ())) ∧
    (∃ e, replaceTextWithTableFromDataframe c7df "-TBL-" none none none c7oracle2 =
      ([.fetch,
        .update [Request.deleteContentRange 1 8,
          Request.insertTable 1 ((c7df.columns :: c7df.rows).length : Int)
            (c7df.columns.length : Int)],
        .fetch, .fetch,
        .update [Request.insertText e (cleanText (fallbackText c7df))]], .ok ()))) := by
  exact ⟨⟨rfl, rfl, rfl, rfl, rfl, rfl⟩,
    c7_no_table_fallback c7df 3 none none none c7oracle c7df "-TBL-" none none
      none c7oracle2 1 8 rfl rfl rfl rfl rfl rfl rfl⟩

/-- Is the value a Python string? -/
def isStrVal : PyVal → Bool
  | .str _ => true
  | _ => false

/-- Binding a success in the `Except` monad applies the continuation. -/
theorem exceptBind_ok {ε α β : Type} (a : α) (f : α → Except ε β) :
    (Except.ok a : Except ε α) >>= f = f a := rfl

/-- `key in dict` agrees with lookup success. -/
theorem any_key_eq_isSome (es : List (String × PyVal)) (key : String) :
    (es.any (fun kv => kv.1 == key)) = (alistGet es key).isSome := by
  induction es with
  | nil => rfl
  | cons kv rest ih =>
    by_cases hk : kv.1 = key
    · simp [List.any_cons, alistGet, hk]
    · have hb : (kv.1 == key) = false := beq_eq_false_iff_ne.mpr hk
      simp [List.any_cons, alistGet, hk, hb, ih]

/-- `joinStrParts` succeeds on a list of strings. -/
theorem joinStrParts_ok (l : List PyVal) (h : l.all isStrVal = true) :
    ∃ s, joinStrParts l = .ok s := by
  induction l with
  | nil => exact ⟨"", rfl⟩
  | cons p rest ih =>
    rw [List.all_cons, Bool.and_eq_true] at h
    obtain ⟨hp, hrest⟩ := h
    obtain ⟨s, hs⟩ := ih hrest
    cases p with
    | str t => exact ⟨t ++ s, by simp [joinStrParts, hs, Except.map]⟩
    | int n => simp [isStrVal] at hp
    | boolV b => simp [isStrVal] at hp
    | noneV => simp [isStrVal] at hp
    | list xs => simp [isStrVal] at hp
    | dict es => simp [isStrVal] at hp

/-- The text-run parts of a well-formed paragraph's elements are collected
without error and are all strings. -/
theorem textPartsOfParaElems_ok (pes : List PyVal)
    (h : pes.all wfParaElem = true) :
    ∃ l, textPartsOfParaElems pes = .ok l ∧ l.all isStrVal = true := by
  induction pes with
  | nil => exact ⟨[], rfl, rfl⟩
  | cons pe rest ih =>
    rw [List.all_cons, Bool.and_eq_true] at h
    obtain ⟨hpe, hrest⟩ := h
    obtain ⟨l, hl, hls⟩ := ih hrest
    cases pe with
    | dict es =>
      cases hget : alistGet es "textRun" with
      | none =>
        have hany : (es.any (fun kv => kv.1 == "textRun")) = false := by
          rw [any_key_eq_isSome, hget]
          rfl
        refine ⟨l, ?_, hls⟩
        simp [textPartsOfParaElems, pyContains, hany, exceptBind_ok, hl]
      | some tr =>
        have hany : (es.any (fun kv => kv.1 == "textRun")) = true := by
          rw [any_key_eq_isSome, hget]
          rfl
        cases tr with
        | dict trs =>
          cases hc : alistGet trs "content" with
          | none => simp [wfParaElem, hget, hc] at hpe
          | some cv =>
            cases cv with
            | str s =>
              refine ⟨.str s :: l, ?_, by simp [List.all_cons, isStrVal, hls]⟩
              simp [textPartsOfParaElems, pyContains, hany, exceptBind_ok,
                pySubscript, hget, hc, hl]
            | int n => simp [wfParaElem, hget, hc] at hpe
            | boolV b => simp [wfParaElem, hget, hc] at hpe
            | noneV => simp [wfParaElem, hget, hc] at hpe
            | list xs => simp [wfParaElem, hget, hc] at hpe
            | dict d => simp [wfParaElem, hget, hc] at hpe
        | str s => simp [wfParaElem, hget] at hpe
        | int n => simp [wfParaElem, hget] at hpe
        | boolV b => simp [wfParaElem, hget] at hpe
        | noneV => simp [wfParaElem, hget] at hpe
        | list xs => simp [wfParaElem, hget] at hpe
    | str s => simp [wfParaElem] at hpe
    | int n => simp [wfParaElem] at hpe
    | boolV b => simp [wfParaElem] at hpe
    | noneV => simp [wfParaElem] at hpe
    | list xs => simp [wfParaElem] at hpe

/-- The text parts of a well-formed content list are collected without error
and are all strings. -/
theorem textPartsOfContent_ok (elems : List PyVal)
    (h : elems.all wfElement = true) :
    ∃ l, textPartsOfContent elems = .ok l ∧ l.all isStrVal = true := by
  induction elems with
  | nil => exact ⟨[], rfl, rfl⟩
  | cons element rest ih =>
    rw [List.all_cons, Bool.and_eq_true] at h
    obtain ⟨he, hrest⟩ := h
    obtain ⟨l, hl, hls⟩ := ih hrest
    cases element with
    | dict es =>
      cases hget : alistGet es "paragraph" with
      | none =>
        have hany : (es.any (fun kv => kv.1 == "paragraph")) = false := by
          rw [any_key_eq_isSome, hget]
          rfl
        refine ⟨l, ?_, hls⟩
        simp [textPartsOfContent, pyContains, hany, exceptBind_ok, hl]
      | some p =>
        have hany : (es.any (fun kv => kv.1 == "paragraph")) = true := by
          rw [any_key_eq_isSome, hget]
          rfl
        cases p with
        | dict pes =>
          cases hel : alistGet pes "elements" with
          | none =>
            refine ⟨l, ?_, hls⟩
            simp [textPartsOfContent, pyContains, hany, exceptBind_ok,
              pySubscript, hget, pyDictGet, hel, pyIterList,
              textPartsOfParaElems, hl]
          | some ev =>
            cases ev with
            | list l2 =>
              have hwf2 : l2.all wfParaElem = true := by
                simp only [wfElement, hget, hel] at he
                exact he
              obtain ⟨lp, hlp, hlps⟩ := textPartsOfParaElems_ok l2 hwf2
              refine ⟨lp ++ l, ?_, by simp [List.all_append, hlps, hls]⟩
              simp [textPartsOfContent, pyContains, hany, exceptBind_ok,
                pySubscript, hget, pyDictGet, hel, pyIterList, hlp, hl]
            | str s => simp [wfElement, hget, hel] at he
            | int n => simp [wfElement, hget, hel] at he
            | boolV b => simp [wfElement, hget, hel] at he
            | noneV => simp [wfElement, hget, hel] at he
            | dict d => simp [wfElement, hget, hel] at he
        | str s => simp [wfElement, hget] at he
        | int n => simp [wfElement, hget] at he
        | boolV b => simp [wfElement, hget] at he
        | noneV => simp [wfElement, hget] at he
        | list xs => simp [wfElement, hget] at he
    | str s => simp [wfElement] at he
    | int n => simp [wfElement] at he
    | boolV b => simp [wfElement] at he
    | noneV => simp [wfElement] at he
    | list xs => simp [wfElement] at he

/-- The paragraph objects of a well-formed content list are collected without
error. -/
theorem paragraphsOfContent_ok (elems : List PyVal)
    (h : elems.all wfElement = true) :
    ∃ l, paragraphsOfContent elems = .ok l := by
  induction elems with
  | nil => exact ⟨[], rfl⟩
  | cons element rest ih =>
    rw [List.all_cons, Bool.and_eq_true] at h
    obtain ⟨he, hrest⟩ := h
    obtain ⟨l, hl⟩ := ih hrest
    cases element with
    | dict es =>
      cases hget : alistGet es "paragraph" with
      | none =>
        have hany : (es.any (fun kv => kv.1 == "paragraph")) = false := by
          rw [any_key_eq_isSome, hget]
          rfl
        exact ⟨l, by simp [paragraphsOfContent, pyContains, hany,
          exceptBind_ok, hl]⟩
      | some p =>
        have hany : (es.any (fun kv => kv.1 == "paragraph")) = true := by
          rw [any_key_eq_isSome, hget]
          rfl
        exact ⟨p :: l, by simp [paragraphsOfContent, pyContains, hany,
          exceptBind_ok, pySubscript, hget, hl]⟩
    | str s => simp [wfElement] at he
    | int n => simp [wfElement] at he
    | boolV b => simp [wfElement] at he
    | noneV => simp [wfElement] at he
    | list xs => simp [wfElement] at he

/-- The table objects of a well-formed content list are collected without
error. -/
theorem tablesOfContent_ok (elems : List PyVal)
    (h : elems.all wfElement = true) :
    ∃ l, tablesOfContent elems = .ok l := by
  induction elems with
  | nil => exact ⟨[], rfl⟩
  | cons element rest ih =>
    rw [List.all_cons, Bool.and_eq_true] at h
    obtain ⟨he, hrest⟩ := h
    obtain ⟨l, hl⟩ := ih hrest
    cases element with
    | dict es =>
      cases hget : alistGet es "table" with
      | none =>
        have hany : (es.any (fun kv => kv.1 == "table")) = false := by
          rw [any_key_eq_isSome, hget]
          rfl
        exact ⟨l, by simp [tablesOfContent, pyContains, hany,
          exceptBind_ok, hl]⟩
      | some t =>
        have hany : (es.any (fun kv => kv.1 == "table")) = true := by
          rw [any_key_eq_isSome, hget]
          rfl
        exact ⟨t :: l, by simp [tablesOfContent, pyContains, hany,
          exceptBind_ok, pySubscript, hget, hl]⟩
    | str s => simp [wfElement] at he
    | int n => simp [wfElement] at he
    | boolV b => simp [wfElement] at he
    | noneV => simp [wfElement] at he
    | list xs => simp [wfElement] at he

/-- The document mapping refuting C10: its single paragraph element carries a
`textRun` mapping without a `content` key. -/
def c10badDoc : List (String × PyVal) :=
  [("body", .dict [("content", .list [.dict [("paragraph", .dict
    [("elements", .list [.dict [("textRun", .dict [])]])])]])])]

/-- Claim C10 (counterexample): `extract_text_content` raises a `KeyError` on
a document mapping whose `textRun` lacks the `content` key — the subscript
`para_element["textRun"]["content"]` is unguarded — refuting totality over
arbitrary document mappings. -/
theorem c10_counterexample :
    extract_text_content c10badDoc = .error "KeyError" := by
  rfl

/-- Claim C10 (amended): the extraction functions are total over well-formed
document mappings — `body` absent or a mapping, `content` absent or a list,
each element a mapping whose `paragraph`/`elements`/`textRun` levels are
shaped as fetched documents are, every `textRun` carrying a string
`content` — returning a string and two lists without raising; missing
`body`/`content` keys and empty content are well-formed and yield the empty
results.  Totality does not extend to arbitrary mappings: a `textRun` mapping
without `content` makes `extract_text_content` raise `KeyError`. -/
theorem c10_parser_total (document : List (String × PyVal))
    (h : wfDocument document = true) :
    (∃ s, extract_text_content document = .ok s) ∧
    (∃ l, extract_paragraphs document = .ok l) ∧
    (∃ l, extract_tables document = .ok l) := by
  cases hb : (alistGet document "body").getD (.dict []) with
  | dict bes =>
    cases hc : (alistGet bes "content").getD (.list []) with
    | list elems =>
      have helems : elems.all wfElement = true := by
        simp only [wfDocument, hb, hc] at h
        exact h
      obtain ⟨tp, htp, hstr⟩ := textPartsOfContent_ok elems helems
      obtain ⟨s, hjoin⟩ := joinStrParts_ok tp hstr
      obtain ⟨lp, hlp⟩ := paragraphsOfContent_ok elems helems
      obtain ⟨lt, hlt⟩ := tablesOfContent_ok elems helems
      refine ⟨⟨s, ?_⟩, ⟨lp, ?_⟩, ⟨lt, ?_⟩⟩ <;>
        simp [extract_text_content, extract_paragraphs, extract_tables, hb, hc,
          pyDictGet, pyIterList, exceptBind_ok, htp, hjoin, hlp, hlt]
    | str s => simp [wfDocument, hb, hc] at h
    | int n => simp [wfDocument, hb, hc] at h
    | boolV b => simp [wfDocument, hb, hc] at h
    | noneV => simp [wfDocument, hb, hc] at h
    | dict d => simp [wfDocument, hb, hc] at h
  | str s => simp [wfDocument, hb] at h
  | int n => simp [wfDocument, hb] at h
  | boolV b => simp [wfDocument, hb] at h
  | noneV => simp [wfDocument, hb] at h
  | list xs => simp [wfDocument, hb] at h

/-- A well-formed document mapping with one text run and one table. -/
def c10doc : List (String × PyVal) :=
  [("body", .dict [("content", .list
    [.dict [("paragraph", .dict [("elements", .list
       [.dict [("textRun", .dict [("content", .str "hello")])]])])],
     .dict [("table", .dict [])]])])]

/-- Witness for C10's amended theorem at a concrete well-formed document. -/
theorem c10_parser_total_witness :
    wfDocument c10doc = true ∧
    ((∃ s, extract_text_content c10doc = .ok s) ∧
     (∃ l, extract_paragraphs c10doc = .ok l) ∧
     (∃ l, extract_tables c10doc = .ok l)) := by
  exact ⟨rfl, c10_parser_total c10doc rfl⟩
